import Mathlib

/-!
Verification of the otterserve HTTP file server (Go) against its
natural-language specification.  The Go sources are shallowly embedded:
pure string manipulation from `strings`/`path/filepath` is modelled by
structurally recursive Lean functions over `List Char` (Go operates on
bytes; every byte examined by this code is ASCII, so char-level equals
byte-level processing), filesystem access is modelled by an explicit
record of functions together with a trace of the operations performed,
and HTTP responses are plain records.
-/

namespace Otterserve

/-! ### Generic Go string primitives (package `strings`) -/

/-- Model of `strings.HasPrefix s pre` (byte-level prefix test). -/
def goHasPrefixB (s pre : String) : Bool :=
  pre.data.isPrefixOf s.data

/-- Model of `strings.HasSuffix s suf`. -/
def goHasSuffixB (s suf : String) : Bool :=
  suf.data.isSuffixOf s.data

/-- Model of `strings.TrimPrefix s pre`: drop `pre` when it is a prefix,
otherwise return `s` unchanged. -/
def goTrimPfx (s pre : String) : String :=
  if goHasPrefixB s pre then String.mk (s.data.drop pre.data.length) else s

/-- Split a character list at every occurrence of `sep`
(model of `strings.Split` restricted to a one-character separator). -/
def splitChar (sep : Char) : List Char → List (List Char)
  | [] => [[]]
  | c :: cs =>
    let r := splitChar sep cs
    if c = sep then [] :: r
    else
      match r with
      | h :: t => (c :: h) :: t
      | [] => [[c]]

/-! ### `path/filepath.Clean` (Unix rules, separator `/`)

Go's `Clean` lexically normalises a path: it drops empty and `.`
elements, resolves a `..` element against a preceding element when one
exists, drops a `..` at the root of a rooted path, and keeps leading
`..` elements of a relative path.  The lazybuf loop of the Go source is
realised as a fold over the `/`-separated components with an (in
reverse order) output stack; the two are element-for-element
equivalent. -/

def cleanComponents (rooted : Bool) : List (List Char) → List (List Char) → List (List Char)
  | acc, [] => acc.reverse
  | acc, c :: cs =>
    if c = [] ∨ c = ['.'] then cleanComponents rooted acc cs
    else if c = ['.', '.'] then
      match acc with
      | [] => if rooted then cleanComponents rooted [] cs
              else cleanComponents rooted [['.', '.']] cs
      | t :: rest =>
        if t = ['.', '.'] then cleanComponents rooted (c :: t :: rest) cs
        else cleanComponents rooted rest cs
    else cleanComponents rooted (c :: acc) cs

/-- Join path components with `/` separators. -/
def joinSlash : List (List Char) → List Char
  | [] => []
  | [c] => c
  | c :: cs => c ++ '/' :: joinSlash cs

/-- Model of `filepath.Clean` on Unix. -/
def pathClean (p : String) : String :=
  match p.data with
  | [] => "."
  | c :: cs =>
    let rooted := c = '/'
    let out := joinSlash (cleanComponents rooted [] (splitChar '/' (c :: cs)))
    if rooted then String.mk ('/' :: out)
    else if out = [] then "." else String.mk out

/-- Model of `filepath.Join` on Unix for two elements: empty elements
are dropped, the rest are joined with `/` and the result is `Clean`ed;
`Join` of only empty elements is `""`. -/
def pathJoin (a b : String) : String :=
  if a = "" then (if b = "" then "" else pathClean b)
  else if b = "" then pathClean a
  else pathClean (a ++ "/" ++ b)

/-! ### Filesystem and HTTP response model

`internal/fileserver` touches the filesystem through `os.Stat`,
`os.Open` (followed by `http.ServeContent`, which reads the opened
file) and `os.ReadDir`.  A filesystem is modelled as a record of those
three primitives; every handler returns, next to its HTTP response, the
exact list of filesystem operations it performed, in order. -/

/-- The error classes the Go code distinguishes with `os.IsNotExist`
and `os.IsPermission`; everything else is `other`. -/
inductive FsErr
  | notExist
  | permission
  | other
deriving DecidableEq

/-- Result of a successful `os.Stat`: the fields the code reads. -/
structure Stat where
  isDir : Bool
  size : Nat
  modTime : Nat
deriving DecidableEq

/-- One entry as returned by `os.ReadDir` together with its
`entry.Info()` data.  `infoErr = true` models the race in which
`entry.Info()` fails after the directory was read (the source skips
such entries). -/
structure DirEnt where
  name : String
  size : Nat
  modTime : Nat
  isDir : Bool
  infoErr : Bool
deriving DecidableEq

/-- A filesystem: the three primitives used by the file server. -/
structure FS where
  stat : String → Except FsErr Stat
  openRead : String → Except FsErr String
  readDir : String → Except FsErr (List DirEnt)

/-- A recorded filesystem operation. -/
inductive FsOp
  | statOp (path : String)
  | openOp (path : String)
  | readDirOp (path : String)
deriving DecidableEq

/-- An HTTP response: status code, headers in the order they are set,
and the body that was written. -/
structure Response where
  status : Nat
  headers : List (String × String)
  body : String
deriving DecidableEq

/-- Model of `net/http.Error(w, msg, code)`: plain-text headers and the
message followed by a newline. -/
def httpError (msg : String) (code : Nat) : Response :=
  { status := code
  , headers := [("Content-Type", "text/plain; charset=utf-8"), ("X-Content-Type-Options", "nosniff")]
  , body := msg ++ "\n" }

/-! ### `internal/fileserver`: content types -/

/-- Model of `filepath.Ext`: the suffix of the final path element
starting at its last dot, or `""` when the final element has no dot. -/
def extGo (acc : List Char) : List Char → String
  | [] => ""
  | c :: rest =>
    if c = '/' then ""
    else if c = '.' then String.mk (c :: acc)
    else extGo (c :: acc) rest

/-- `filepath.Ext` over a whole path. -/
def extOf (p : String) : String := extGo [] p.data.reverse

/-- Model of `mime.TypeByExtension` restricted to Go's builtin table
(the platform may extend the table from system files; that external
part is not modelled and unknown extensions fall through to `""`). -/
def mimeByExt (e : String) : String :=
  if e = ".css" then "text/css; charset=utf-8"
  else if e = ".gif" then "image/gif"
  else if e = ".htm" then "text/html; charset=utf-8"
  else if e = ".html" then "text/html; charset=utf-8"
  else if e = ".jpeg" then "image/jpeg"
  else if e = ".jpg" then "image/jpeg"
  else if e = ".js" then "text/javascript; charset=utf-8"
  else if e = ".json" then "application/json"
  else if e = ".mjs" then "text/javascript; charset=utf-8"
  else if e = ".pdf" then "application/pdf"
  else if e = ".png" then "image/png"
  else if e = ".svg" then "image/svg+xml"
  else if e = ".wasm" then "application/wasm"
  else if e = ".webp" then "image/webp"
  else if e = ".xml" then "text/xml; charset=utf-8"
  else ""

/-- Lines 102–105 of `fileserver.go`: content type from the extension,
falling back to `application/octet-stream`. -/
def contentTypeOf (filePath : String) : String :=
  let ct := mimeByExt (extOf filePath)
  if ct = "" then "application/octet-stream" else ct

/-! ### `internal/fileserver`: directory listings -/

/-- `fileserver.FileInfo`: the view of an entry used for listings. -/
structure FInfo where
  name : String
  size : Nat
  modTime : Nat
  isDir : Bool
deriving DecidableEq

/-- Go string comparison `a <= b` (bytewise lexicographic; UTF-8
preserves the codepoint order, so char-level comparison agrees). -/
def lexLe : List Char → List Char → Bool
  | [], _ => true
  | _ :: _, [] => false
  | a :: as, b :: bs =>
    if a.toNat < b.toNat then true
    else if b.toNat < a.toNat then false
    else lexLe as bs

/-- The `less` closure of `sort.Slice` in `ListDirectory`
(lines 146–151): directories first, then by name.  Go's `a.Name <
b.Name` is `!(b.Name <= a.Name)`. -/
def fileLess (a b : FInfo) : Bool :=
  if a.isDir ≠ b.isDir then a.isDir
  else !(lexLe b.name.data a.name.data)

/-- The non-strict order corresponding to `fileLess`; `sort.Slice`
guarantees exactly that the output is pairwise `fileLe`-ordered. -/
def fileLe (a b : FInfo) : Bool := !(fileLess b a)

/-- Decimal rendering of a natural number, digit by digit
(the output of `fmt.Sprintf` verb `%d`; the fuel argument makes the
recursion structural, `decDigitsAux n n` always has enough fuel). -/
def decDigitsAux : Nat → Nat → List Nat
  | _, 0 => []
  | 0, _ + 1 => []
  | f + 1, n + 1 => (n + 1) % 10 :: decDigitsAux f ((n + 1) / 10)

/-- One decimal digit as a character. -/
def decDigitChar : Nat → Char
  | 0 => '0' | 1 => '1' | 2 => '2' | 3 => '3' | 4 => '4'
  | 5 => '5' | 6 => '6' | 7 => '7' | 8 => '8' | _ => '9'

/-- Decimal representation, most significant digit first. -/
def decReprChars (n : Nat) : List Char :=
  if n = 0 then ['0'] else ((decDigitsAux n n).map decDigitChar).reverse

/-- `fmt.Sprintf` with verb `%d` on a natural number. -/
def decRepr (n : Nat) : String := String.mk (decReprChars n)

/-- The `for n := size / unit; n >= unit; n /= unit` loop of
`FormatSize`, with fuel (6 suffices for any 64-bit size). -/
def sizeUnitLoop : Nat → Nat → Nat → Nat → Nat × Nat
  | _, div, exp, 0 => (div, exp)
  | n, div, exp, fuel + 1 =>
    if n ≥ 1024 then sizeUnitLoop (n / 1024) (div * 1024) (exp + 1) fuel else (div, exp)

/-- `FileInfo.FormatSize` (lines 175–192): `-` for directories, `N B`
below 1024, otherwise one-decimal binary units.  The one decimal place
of the `%.1f` float rendering is modelled by truncating fixed-point
arithmetic (rounding mode of the float formatter is not modelled; no
claim depends on it). -/
def formatSize (fi : FInfo) : String :=
  if fi.isDir then "-"
  else if fi.size < 1024 then decRepr fi.size ++ " B"
  else
    let de := sizeUnitLoop (fi.size / 1024) 1024 0 6
    let tenths := fi.size * 10 / de.1
    decRepr (tenths / 10) ++ "." ++ decRepr (tenths % 10) ++ " " ++
      String.mk ["KMGTPE".data.getD de.2 'E'] ++ "B"

/-- `FileInfo.FormatModTime`: an opaque textual rendering of the
modification timestamp (the Go date layout is not modelled; no claim
depends on it). -/
def formatModTime (fi : FInfo) : String := decRepr fi.modTime

/-- The `<style>` block of `directoryTemplate` (literal text). -/
def htmlStyle : String :=
  "    <style>\n        body \x7b font-family: Arial, sans-serif; margin: 40px; \x7d\n        h1 \x7b color: #333; \x7d\n        table \x7b border-collapse: collapse; width: 100%; \x7d\n        th, td \x7b text-align: left; padding: 8px; border-bottom: 1px solid #ddd; \x7d\n        th \x7b background-color: #f2f2f2; \x7d\n        tr:hover \x7b background-color: #f5f5f5; \x7d\n        a \x7b text-decoration: none; color: #0066cc; \x7d\n        a:hover \x7b text-decoration: underline; \x7d\n        .dir \x7b font-weight: bold; \x7d\n        .size \x7b text-align: right; \x7d\n        .date \x7b color: #666; \x7d\n    </style>\n"

/-- Literal text of `directoryTemplate` up to `<tbody>`, with the two
`.Path` substitutions applied. -/
def listingHeader (path : String) : String :=
  "\n<!DOCTYPE html>\n<html>\n<head>\n    <title>Directory listing for " ++ path ++
  "</title>\n" ++ htmlStyle ++
  "</head>\n<body>\n    <h1>Directory listing for " ++ path ++
  "</h1>\n    <table>\n        <thead>\n            <tr>\n                <th>Name</th>\n                <th>Size</th>\n                <th>Last Modified</th>\n            </tr>\n        </thead>\n        <tbody>\n"

/-- The `{{if ne .Path \x22/\x22}}` parent-directory row. -/
def parentRow (path : String) : String :=
  if path = "/" then ""
  else "            <tr>\n                <td><a href=\"../\" class=\"dir\">../</a></td>\n                <td class=\"size\">-</td>\n                <td class=\"date\">-</td>\n            </tr>\n"

/-- One `{{range .Files}}` iteration of the template, with the
substitutions applied (inter-tag whitespace of the template is kept
only approximately; no claim depends on it). -/
def rowHtml (fi : FInfo) : String :=
  "            <tr>\n                <td>\n" ++
  (if fi.isDir then
    "                    <a href=\"" ++ fi.name ++ "/\" class=\"dir\">" ++ fi.name ++ "/</a>\n"
   else
    "                    <a href=\"" ++ fi.name ++ "\">" ++ fi.name ++ "</a>\n") ++
  "                </td>\n                <td class=\"size\">" ++ formatSize fi ++
  "</td>\n                <td class=\"date\">" ++ formatModTime fi ++
  "</td>\n            </tr>\n"

/-- Closing literal text of the template. -/
def listingFooter : String := "        </tbody>\n    </table>\n</body>\n</html>\n"

/-- Concatenation of the rendered rows, in list order. -/
def concatStr : List String → String
  | [] => ""
  | s :: rest => s ++ concatStr rest

/-- `directoryTemplate.Execute` on a `DirectoryListing`. -/
def renderListing (path : String) (files : List FInfo) : String :=
  listingHeader path ++ parentRow path ++ concatStr (files.map rowHtml) ++ listingFooter

/-- Lines 129–151 of `ListDirectory`: convert the readable entries and
sort them with `sort.Slice` under `fileLess` (realised as a merge sort
under the corresponding non-strict order `fileLe`; any sort for that
comparator produces a `fileLe`-pairwise-ordered permutation, which is
all `sort.Slice` guarantees). -/
def listingFiles (entries : List DirEnt) : List FInfo :=
  ((entries.filter (fun e => !e.infoErr)).map
      (fun e => { name := e.name, size := e.size, modTime := e.modTime, isDir := e.isDir })).mergeSort
    fileLe

/-- `ListDirectory` (lines 117–164). -/
def listDirectory (fs : FS) (directory urlPath : String) : Response × List FsOp :=
  match fs.readDir directory with
  | .error .permission => (httpError "403 Forbidden" 403, [.readDirOp directory])
  | .error _ => (httpError "500 Internal Server Error" 500, [.readDirOp directory])
  | .ok entries =>
    ({ status := 200
     , headers := [("Content-Type", "text/html; charset=utf-8")]
     , body := renderListing urlPath (listingFiles entries) }, [.readDirOp directory])

/-! ### `internal/fileserver`: file serving -/

/-- `serveFile` (lines 88–114): open the file, set headers, hand off
to `http.ServeContent`.  For a plain GET without conditional or range
headers — the only request shape the claims quantify over —
`ServeContent` writes the entire content with status 200.  The
`Last-Modified` value stands in for the formatted HTTP time (layout
not modelled; no claim depends on it). -/
def serveFileM (fs : FS) (filePath : String) (info : Stat) : Response × List FsOp :=
  match fs.openRead filePath with
  | .error .permission => (httpError "403 Forbidden" 403, [.openOp filePath])
  | .error _ => (httpError "500 Internal Server Error" 500, [.openOp filePath])
  | .ok content =>
    ({ status := 200
     , headers := [("Content-Type", contentTypeOf filePath),
                   ("Content-Length", decRepr info.size),
                   ("Last-Modified", decRepr info.modTime)]
     , body := content }, [.openOp filePath])

/-- The ordered index candidates of `handleDirectory` (line 74). -/
def indexFiles : List String := ["index.html", "index.htm", "default.html"]

/-- The probe loop of `handleDirectory` (lines 75–81): stat each
candidate inside the directory, serve the first that exists and is not
itself a directory. -/
def probeIndex (fs : FS) (fullPath : String) : List String → Option (String × Stat) × List FsOp
  | [] => (none, [])
  | c :: rest =>
    let p := pathJoin fullPath c
    match fs.stat p with
    | .ok info =>
      if info.isDir then
        let r := probeIndex fs fullPath rest
        (r.1, .statOp p :: r.2)
      else (some (p, info), [.statOp p])
    | .error _ =>
      let r := probeIndex fs fullPath rest
      (r.1, .statOp p :: r.2)

/-- `handleDirectory` (lines 72–85). -/
def handleDirectory (fs : FS) (fullPath urlPath : String) : Response × List FsOp :=
  match probeIndex fs fullPath indexFiles with
  | (some hit, ops) =>
    let r := serveFileM fs hit.1 hit.2
    (r.1, ops ++ r.2)
  | (none, ops) =>
    let r := listDirectory fs fullPath urlPath
    (r.1, ops ++ r.2)

/-- Lines 33–39 of `ServeFiles`: strip the mount prefix from the
request path, default an empty remainder to `/`, and lexically clean
the result. -/
def cleanedRemainder (basePath urlPath : String) : String :=
  let rel0 := goTrimPfx urlPath basePath
  let rel1 := if rel0 = "" then "/" else rel0
  pathClean rel1

/-- `ServeFiles` (lines 31–69): the complete per-route request
pipeline of the file server. -/
def serveFiles (fs : FS) (basePath directory urlPath : String) : Response × List FsOp :=
  let rel := cleanedRemainder basePath urlPath
  if goHasPrefixB rel ".." then (httpError "403 Forbidden" 403, [])
  else
    let fullPath := pathJoin directory rel
    match fs.stat fullPath with
    | .error .notExist => (httpError "404 Not Found" 404, [.statOp fullPath])
    | .error .permission => (httpError "403 Forbidden" 403, [.statOp fullPath])
    | .error .other => (httpError "500 Internal Server Error" 500, [.statOp fullPath])
    | .ok info =>
      if info.isDir then
        let r := handleDirectory fs fullPath urlPath
        (r.1, .statOp fullPath :: r.2)
      else
        let r := serveFileM fs fullPath info
        (r.1, .statOp fullPath :: r.2)

/-! ### `internal/auth`

Go strings are byte sequences; the bytes decoded from a Basic
authorization header need not be valid UTF-8, so credentials are
compared at the byte level (`List Nat`).  `subtle.ConstantTimeCompare
(a, b) == 1` holds exactly when the two byte slices are equal, so the
constant-time comparison is modelled as byte-list equality. -/

/-- UTF-8 encoding of one character, as byte values. -/
def utf8EncodeCharNat (c : Char) : List Nat :=
  let n := c.toNat
  if n < 128 then [n]
  else if n < 2048 then [192 + n / 64, 128 + n % 64]
  else if n < 65536 then [224 + n / 4096, 128 + n / 64 % 64, 128 + n % 64]
  else [240 + n / 262144, 128 + n / 4096 % 64, 128 + n / 64 % 64, 128 + n % 64]

/-- The bytes of a Go string (`[]byte(s)`). -/
def utf8Bytes (s : String) : List Nat :=
  (s.data.map utf8EncodeCharNat).flatten

/-- Value of one character of the standard base64 alphabet. -/
def b64Val (c : Char) : Option Nat :=
  let n := c.toNat
  if 65 ≤ n ∧ n ≤ 90 then some (n - 65)
  else if 97 ≤ n ∧ n ≤ 122 then some (n - 71)
  else if 48 ≤ n ∧ n ≤ 57 then some (n + 4)
  else if c = '+' then some 62
  else if c = '/' then some 63
  else none

/-- Quad-by-quad decoding loop of `base64.StdEncoding.DecodeString`:
the input length must be a multiple of four, `=` padding may occur
only at the end, and any character outside the alphabet is an error
(newline skipping and the strict-mode check of trailing bits are not
modelled; no claim depends on them). -/
def b64Quads : List Char → Option (List Nat)
  | [] => some []
  | a :: b :: c :: d :: rest =>
    match b64Val a, b64Val b with
    | some va, some vb =>
      if d = '=' then
        if rest ≠ [] then none
        else if c = '=' then some [va * 4 + vb / 16]
        else
          match b64Val c with
          | some vc => some [va * 4 + vb / 16, vb % 16 * 16 + vc / 4]
          | none => none
      else if c = '=' then none
      else
        match b64Val c, b64Val d with
        | some vc, some vd =>
          match b64Quads rest with
          | some bs => some ((va * 4 + vb / 16) :: (vb % 16 * 16 + vc / 4) :: (vc % 4 * 64 + vd) :: bs)
          | none => none
        | _, _ => none
    | _, _ => none
  | _ => none

/-- Model of `base64.StdEncoding.DecodeString`. -/
def base64Decode (s : String) : Option (List Nat) := b64Quads s.data

/-- `strings.SplitN(credentials, ":", 2)` on the decoded bytes:
`none` when there is no colon (byte 58), otherwise the parts before
and after the first colon. -/
def splitFirstColon : List Nat → Option (List Nat × List Nat)
  | [] => none
  | b :: rest =>
    if b = 58 then some ([], rest)
    else
      match splitFirstColon rest with
      | none => none
      | some up => some (b :: up.1, up.2)

/-- `extractCredentials` (auth.go lines 80–107).  `Header.Get` returns
`""` for an absent header, so the header value `""` models absence. -/
def extractCredentials (authHeader : String) : Option (List Nat × List Nat) :=
  if authHeader = "" then none
  else if !goHasPrefixB authHeader "Basic " then none
  else
    match base64Decode (String.mk (authHeader.data.drop 6)) with
    | none => none
    | some decoded =>
      match splitFirstColon decoded with
      | none => none
      | some up => some up

/-- `BasicAuthenticator.Authenticate` (lines 40–50) on the extracted
byte-level credentials against the configured strings. -/
def authenticate (enabled : Bool) (cfgUser cfgPass : String) (u p : List Nat) : Bool :=
  if !enabled then true
  else (u == utf8Bytes cfgUser) && (p == utf8Bytes cfgPass)

/-- An HTTP request, reduced to the fields this middleware stack
reads: the URL path and the `Authorization` header value. -/
structure Req where
  path : String
  authorization : String
deriving DecidableEq

/-- A handler: a request to a response plus the filesystem trace. -/
def Handler : Type := Req → Response × List FsOp

/-- `sendUnauthorized` (lines 110–115). -/
def unauthorizedResp : Response :=
  { status := 401
  , headers := [("WWW-Authenticate", "Basic realm=\"Mini HTTP Service\""),
                ("Content-Type", "text/plain")]
  , body := "401 Unauthorized\n" }

/-- `BasicAuthenticator.Middleware` (lines 53–77). -/
def basicMiddleware (enabled : Bool) (cfgUser cfgPass : String) (next : Handler) : Handler :=
  fun r =>
    if !enabled then next r
    else
      match extractCredentials r.authorization with
      | none => (unauthorizedResp, [])
      | some up =>
        if !authenticate enabled cfgUser cfgPass up.1 up.2 then (unauthorizedResp, [])
        else next r

/-- `NoOpAuthenticator.Middleware` (lines 136–138): returns `next`
itself. -/
def noOpMiddleware (next : Handler) : Handler := next

/-- The per-route file-serving handler built in `registerRoute`
(server.go lines 157–159). -/
def serveFilesHandler (fs : FS) (basePath directory : String) : Handler :=
  fun r => serveFiles fs basePath directory r.path

/-! ### `internal/server` (request routing and registration)

Route registration goes through Go 1.21's `net/http.ServeMux` (the
Dockerfile builds with `golang:1.21`).  `ServeMux.Handle` panics on an
empty pattern and on a pattern that is already registered; a panic is
modelled as a distinguished `Abort.panicked` outcome that, unlike an
ordinary error, is not wrapped by the callers it passes through. -/

/-- `config.RouteConfig`. -/
structure RouteConfig where
  path : String
  directory : String
deriving DecidableEq

/-- What a mux pattern maps to: a per-route file handler (with its
normalized base path and backing directory) or the catch-all. -/
inductive HandlerV
  | route (basePath directory : String)
  | notFoundV
deriving DecidableEq

/-- The registered patterns of a `ServeMux`, in registration order. -/
abbrev Mux : Type := List (String × HandlerV)

/-- How `RegisterRoutes`/`registerRoute` can fail: an ordinary
returned `error`, or a runtime panic out of `ServeMux.Handle`. -/
inductive Abort
  | err (msg : String)
  | panicked (msg : String)
deriving DecidableEq

instance {ε α : Type} [DecidableEq ε] [DecidableEq α] : DecidableEq (Except ε α) := fun x y =>
  match x, y with
  | .ok a, .ok b =>
    if h : a = b then isTrue (by rw [h]) else isFalse (by intro he; cases he; exact h rfl)
  | .error a, .error b =>
    if h : a = b then isTrue (by rw [h]) else isFalse (by intro he; cases he; exact h rfl)
  | .ok _, .error _ => isFalse (by intro h; cases h)
  | .error _, .ok _ => isFalse (by intro h; cases h)

/-- Go 1.21 `ServeMux.Handle`: panics on the empty pattern and on a
duplicate registration of the same pattern, otherwise records the
pattern. -/
def muxHandle (m : Mux) (pattern : String) (h : HandlerV) : Except Abort Mux :=
  if pattern = "" then .error (.panicked "http: invalid pattern")
  else if (List.any m fun e => e.1 = pattern) then
    .error (.panicked ("http: multiple registrations for " ++ pattern))
  else .ok (List.append m [(pattern, h)])

/-- Line 144 of `registerRoute`: force a leading slash onto the
configured mount path. -/
def normalizePath1 (p : String) : String :=
  if !goHasPrefixB p "/" then "/" ++ p else p

/-- Lines 142–149 of `registerRoute`: force a leading and a trailing
slash onto the configured mount path. -/
def normalizePath (p : String) : String :=
  if !goHasSuffixB (normalizePath1 p) "/" then normalizePath1 p ++ "/" else normalizePath1 p

/-- `registerRoute` (server.go lines 133–168): validate, normalize,
register the composed handler under the normalized path. -/
def registerRoute (m : Mux) (r : RouteConfig) : Except Abort Mux :=
  if r.path = "" then .error (.err "route path cannot be empty")
  else if r.directory = "" then .error (.err "route directory cannot be empty")
  else muxHandle m (normalizePath r.path) (.route (normalizePath r.path) r.directory)

/-- The registration loop of `RegisterRoutes` (lines 120–124): an
`error` returned by `registerRoute` is wrapped with the offending
route's configured path; a panic propagates unwrapped. -/
def registerAll (m : Mux) : List RouteConfig → Except Abort Mux
  | [] => .ok m
  | r :: rest =>
    match registerRoute m r with
    | .ok m2 => registerAll m2 rest
    | .error (.err msg) =>
      .error (.err ("failed to register route " ++ r.path ++ ": " ++ msg))
    | .error (.panicked msg) => .error (.panicked msg)

/-- `RegisterRoutes` (lines 115–130): reject an empty route list, run
the loop, then register the catch-all under `/`. -/
def registerRoutes (routes : List RouteConfig) : Except Abort Mux :=
  if routes.length = 0 then .error (.err "no routes configured")
  else
    match registerAll [] routes with
    | .ok m => muxHandle m "/" .notFoundV
    | .error e => .error e

/-- The registration phase of `Start` (lines 59–63): a registration
`error` aborts startup wrapped in `failed to register routes`; the
listener is bound only afterwards (binding is an external effect and
not modelled). -/
def serverStart (routes : List RouteConfig) : Except Abort Mux :=
  match registerRoutes routes with
  | .ok m => .ok m
  | .error (.err msg) => .error (.err ("failed to register routes: " ++ msg))
  | .error (.panicked msg) => .error (.panicked msg)

/-- `notFoundHandler` (lines 205–233).  The loop over the configured
routes re-normalizes each path and returns without writing anything
when some normalized mount path is a prefix of the request path (the
implicit empty 200 of `net/http`); otherwise it writes the plain-text
404 body that echoes the request path.  It touches no filesystem. -/
def notFoundHandler (routes : List RouteConfig) (urlPath : String) : Response × List FsOp :=
  if (List.any routes fun route => goHasPrefixB urlPath (normalizePath route.path)) then
    ({ status := 200, headers := [], body := "" }, [])
  else
    ({ status := 404
     , headers := [("Content-Type", "text/plain")]
     , body := "404 Not Found\n\nThe requested path '" ++ urlPath ++
               "' was not found on this server.\n" }, [])

/-- `generateRequestID` (lines 264–266): `fmt.Sprintf("req-%d",
time.Now().UnixNano())`.  Its only input is the wall-clock reading at
the moment of the call, which Go does not guarantee to be distinct
across calls (concurrent requests can observe the same nanosecond). -/
def generateRequestID (nowUnixNano : Nat) : String :=
  "req-" ++ decRepr nowUnixNano

/-- The request identifiers generated over a process lifetime whose
successive clock readings are `clock`. -/
def requestIDs (clock : List Nat) : List String :=
  clock.map generateRequestID

/-! ## Theorems -/

/-- Rebuilding a string from its character list is the identity. -/
theorem strMk_data (s : String) : String.mk s.data = s := rfl

/-- The character list of a concatenation. -/
theorem str_data_append (a b : String) : (a ++ b).data = a.data ++ b.data := rfl

/-- Concatenation of strings is associative. -/
theorem str_append_assoc (a b c : String) : (a ++ b) ++ c = a ++ (b ++ c) :=
  congrArg String.mk (List.append_assoc a.data b.data c.data)

/-- Shared lemma for C1 and C10: whenever the cleaned remainder starts
with the two characters `..`, `ServeFiles` answers 403 before touching
the filesystem. -/
theorem serveFiles_forbidden_of_ddPfx (fs : FS) (basePath directory urlPath : String)
    (h : goHasPrefixB (cleanedRemainder basePath urlPath) ".." = true) :
    serveFiles fs basePath directory urlPath = (httpError "403 Forbidden" 403, []) := by
  unfold serveFiles
  simp [h]

/-- Claim C1: for every HTTP request whose path, after stripping the
route's mount prefix and lexically cleaning the remainder, contains a
`..` segment that would resolve above the route's root directory
(i.e. the cleaned remainder is `..` or starts with `../`), `ServeFiles`
responds 403 Forbidden and performs no filesystem stat, open, or serve
— the response is independent of the filesystem and the operation
trace is empty. -/
theorem serveFiles_rejects_traversal (fs : FS) (basePath directory urlPath : String)
    (h : cleanedRemainder basePath urlPath = ".." ∨
         goHasPrefixB (cleanedRemainder basePath urlPath) "../" = true) :
    serveFiles fs basePath directory urlPath = (httpError "403 Forbidden" 403, []) := by
  apply serveFiles_forbidden_of_ddPfx
  rcases h with h | h
  · rw [h]; decide
  · rw [goHasPrefixB, List.isPrefixOf_iff_prefix] at h ⊢
    exact List.IsPrefix.trans ⟨['/'], rfl⟩ h

/-- A filesystem with no entries at all (used only to instantiate
universally quantified filesystems in witnesses). -/
def emptyFS : FS :=
  { stat := fun _ => .error .notExist
  , openRead := fun _ => .error .notExist
  , readDir := fun _ => .error .notExist }

/-- Witness for C1 at the spec's own example
`/static/../../etc/passwd`. -/
theorem serveFiles_rejects_traversal_witness :
    serveFiles emptyFS "/static/" "/var/www" "/static/../../etc/passwd" =
      (httpError "403 Forbidden" 403, []) :=
  serveFiles_rejects_traversal emptyFS "/static/" "/var/www" "/static/../../etc/passwd"
    (Or.inr (by decide))

/-- Claim C10: whenever the mount-stripped, cleaned remainder merely
begins with the two characters `..`, `ServeFiles` responds 403 with no
filesystem access, even though the named entry may lie inside the
route's root directory — the response is the same for every
filesystem. -/
theorem serveFiles_forbids_dotdot_named_entries (fs : FS) (basePath directory urlPath : String)
    (h : goHasPrefixB (cleanedRemainder basePath urlPath) ".." = true) :
    serveFiles fs basePath directory urlPath = (httpError "403 Forbidden" 403, []) :=
  serveFiles_forbidden_of_ddPfx fs basePath directory urlPath h

/-- A filesystem holding a regular file literally named `..data` in
the root directory `/var/www`. -/
def dotDataFS : FS :=
  { stat := fun p => if p = "/var/www/..data" then .ok ⟨false, 6, 0⟩ else .error .notExist
  , openRead := fun p => if p = "/var/www/..data" then .ok "secret" else .error .other
  , readDir := fun _ => .error .other }

/-- Witness for C10: requesting the existing file `..data` yields 403
and no filesystem access, although the resolved target exists and is
readable inside the root. -/
theorem serveFiles_forbids_dotdot_named_entries_witness :
    serveFiles dotDataFS "/static/" "/var/www" "/static/..data" =
      (httpError "403 Forbidden" 403, []) ∧
    dotDataFS.stat (pathJoin "/var/www" (cleanedRemainder "/static/" "/static/..data")) =
      .ok ⟨false, 6, 0⟩ ∧
    dotDataFS.openRead (pathJoin "/var/www" (cleanedRemainder "/static/" "/static/..data")) =
      .ok "secret" :=
  ⟨serveFiles_forbids_dotdot_named_entries dotDataFS "/static/" "/var/www" "/static/..data"
      (by decide),
   by decide, by decide⟩

/-- Claim C9: when authentication is disabled, both middleware
variants are the identity wrapper: the wrapped handler is invoked on
the unchanged request, and composing the disabled middleware with a
route's file handler answers exactly what `ServeFiles` answers. -/
theorem disabled_auth_passthrough (cfgUser cfgPass : String) (next : Handler) (r : Req)
    (fs : FS) (basePath directory : String) :
    noOpMiddleware next r = next r ∧
    basicMiddleware false cfgUser cfgPass next r = next r ∧
    basicMiddleware false cfgUser cfgPass (serveFilesHandler fs basePath directory) r =
      serveFiles fs basePath directory r.path :=
  ⟨rfl, rfl, rfl⟩

/-- Claim C4: a request whose path is matched by no configured mount
prefix gets a plain-text 404 whose body embeds the literal request
path, with no filesystem operation performed. -/
theorem catchall_404_echoes_path (routes : List RouteConfig) (urlPath : String)
    (h : ∀ r ∈ routes, goHasPrefixB urlPath (normalizePath r.path) = false) :
    notFoundHandler routes urlPath =
      ({ status := 404
       , headers := [("Content-Type", "text/plain")]
       , body := "404 Not Found\n\nThe requested path '" ++ urlPath ++
                 "' was not found on this server.\n" }, []) := by
  unfold notFoundHandler
  have hany : (List.any routes fun route => goHasPrefixB urlPath (normalizePath route.path)) = false := by
    rw [List.any_eq_false]
    intro r hr
    simp [h r hr]
  simp [hany]

/-- Witness for C4: the spec's own scenario `/unmatched` against a
single `/static` route. -/
theorem catchall_404_echoes_path_witness :
    notFoundHandler [⟨"/static", "/srv/static"⟩] "/unmatched" =
      ({ status := 404
       , headers := [("Content-Type", "text/plain")]
       , body := "404 Not Found\n\nThe requested path '" ++ "/unmatched" ++
                 "' was not found on this server.\n" }, []) :=
  catchall_404_echoes_path [⟨"/static", "/srv/static"⟩] "/unmatched" (by decide)

/-- Decoded credential bytes without a colon cannot be split. -/
theorem splitFirstColon_eq_none (bs : List Nat) (h : ¬ 58 ∈ bs) : splitFirstColon bs = none := by
  induction bs with
  | nil => rfl
  | cons b rest ih =>
    have hb : ¬ b = 58 := fun hb => h (by simp [hb])
    have ht : ¬ 58 ∈ rest := fun ht => h (by simp [ht])
    simp [splitFirstColon, hb, ih ht]

/-- Claim C2: with authentication enabled, every request whose
`Authorization` header is absent, not of scheme `Basic`, not valid
base64, or whose decoded bytes hold no colon fails credential
extraction, and every failed extraction or non-matching credential
pair is answered by the constant 401 response carrying the
`WWW-Authenticate: Basic realm="..."` challenge, without invoking the
wrapped handler (the result does not depend on `next`); a well-formed
pair matching both configured credentials invokes the wrapped handler
on the unchanged request. -/
theorem basicAuth_middleware_gate (cfgUser cfgPass : String) (next : Handler) (r : Req) :
    (extractCredentials r.authorization = none →
      basicMiddleware true cfgUser cfgPass next r = (unauthorizedResp, [])) ∧
    (r.authorization = "" → extractCredentials r.authorization = none) ∧
    (goHasPrefixB r.authorization "Basic " = false → extractCredentials r.authorization = none) ∧
    (∀ rest : String, r.authorization = "Basic " ++ rest → base64Decode rest = none →
      extractCredentials r.authorization = none) ∧
    (∀ (rest : String) (bs : List Nat), r.authorization = "Basic " ++ rest →
      base64Decode rest = some bs → ¬ 58 ∈ bs → extractCredentials r.authorization = none) ∧
    (∀ u p : List Nat, extractCredentials r.authorization = some (u, p) →
      ¬(u = utf8Bytes cfgUser ∧ p = utf8Bytes cfgPass) →
      basicMiddleware true cfgUser cfgPass next r = (unauthorizedResp, [])) ∧
    (extractCredentials r.authorization = some (utf8Bytes cfgUser, utf8Bytes cfgPass) →
      basicMiddleware true cfgUser cfgPass next r = next r) ∧
    unauthorizedResp.status = 401 ∧
    unauthorizedResp.headers.contains
      ("WWW-Authenticate", "Basic realm=\"Mini HTTP Service\"") = true := by
  have hbasic_ne : ∀ rest : String, ("Basic " ++ rest : String) ≠ "" := by
    intro rest hc
    have := congrArg String.data hc
    rw [str_data_append] at this
    simp at this
  have hbasic_pfx : ∀ rest : String, goHasPrefixB ("Basic " ++ rest) "Basic " = true := by
    intro rest
    rw [goHasPrefixB, List.isPrefixOf_iff_prefix, str_data_append]
    exact ⟨rest.data, rfl⟩
  have hdrop : ∀ rest : String, ("Basic " ++ rest : String).data.drop 6 = rest.data := by
    intro rest
    rw [str_data_append]
    exact List.drop_left "Basic ".data rest.data
  refine ⟨?_, ?_, ?_, ?_, ?_, ?_, ?_, rfl, by decide⟩
  · intro h
    simp [basicMiddleware, h]
  · intro h
    simp [extractCredentials, h]
  · intro h
    unfold extractCredentials
    by_cases he : r.authorization = ""
    · simp [he]
    · simp [he, h]
  · intro rest hr hdec
    unfold extractCredentials
    rw [hr]
    simp only [hbasic_ne rest, hbasic_pfx rest, if_false, Bool.not_true]
    rw [show base64Decode (String.mk (("Basic " ++ rest : String).data.drop 6)) =
          base64Decode rest by rw [hdrop rest, strMk_data]]
    simp [hdec]
  · intro rest bs hr hdec hcolon
    unfold extractCredentials
    rw [hr]
    simp only [hbasic_ne rest, hbasic_pfx rest, if_false, Bool.not_true]
    rw [show base64Decode (String.mk (("Basic " ++ rest : String).data.drop 6)) =
          base64Decode rest by rw [hdrop rest, strMk_data]]
    simp [hdec, splitFirstColon_eq_none bs hcolon]
  · intro u p hex hmis
    have hauth : authenticate true cfgUser cfgPass u p = false := by
      unfold authenticate
      simp only [Bool.not_true, if_false]
      by_cases hu : u = utf8Bytes cfgUser
      · have hp : ¬ p = utf8Bytes cfgPass := fun hp => hmis ⟨hu, hp⟩
        simp [hu, hp]
      · simp [hu]
    simp [basicMiddleware, hex, hauth]
  · intro hex
    simp [basicMiddleware, hex, authenticate]

/-- A handler answering 200 `file`, used to instantiate the wrapped
handler in the C2 witness. -/
def okHandler : Handler := fun _ => ({ status := 200, headers := [], body := "file" }, [])

/-- Witness for C2 with `admin`/`secret`: the matching header invokes
the wrapped handler, a wrong password and a missing header are both
answered by the constant 401 challenge. -/
theorem basicAuth_middleware_gate_witness :
    basicMiddleware true "admin" "secret" okHandler ⟨"/f", "Basic YWRtaW46c2VjcmV0"⟩ =
      okHandler ⟨"/f", "Basic YWRtaW46c2VjcmV0"⟩ ∧
    basicMiddleware true "admin" "secret" okHandler ⟨"/f", "Basic YWRtaW46d3Jvbmc="⟩ =
      (unauthorizedResp, []) ∧
    basicMiddleware true "admin" "secret" okHandler ⟨"/f", ""⟩ = (unauthorizedResp, []) := by
  refine ⟨?_, ?_, ?_⟩
  · exact (basicAuth_middleware_gate "admin" "secret" okHandler
      ⟨"/f", "Basic YWRtaW46c2VjcmV0"⟩).2.2.2.2.2.2.1 (by decide)
  · exact (basicAuth_middleware_gate "admin" "secret" okHandler
      ⟨"/f", "Basic YWRtaW46d3Jvbmc="⟩).2.2.2.2.2.1 (utf8Bytes "admin") (utf8Bytes "wrong")
      (by decide) (by decide)
  · exact (basicAuth_middleware_gate "admin" "secret" okHandler ⟨"/f", ""⟩).1
      ((basicAuth_middleware_gate "admin" "secret" okHandler ⟨"/f", ""⟩).2.1 rfl)

/-- The registration loop splits along list concatenation. -/
theorem registerAll_append (l1 l2 : List RouteConfig) : ∀ m : Mux,
    registerAll m (l1 ++ l2) =
      match registerAll m l1 with
      | .ok m2 => registerAll m2 l2
      | .error e => .error e := by
  induction l1 with
  | nil => intro m; rfl
  | cons r rest ih =>
    intro m
    simp only [List.cons_append, registerAll]
    cases hr : registerRoute m r with
    | ok m2 => exact ih m2
    | error e => cases e <;> rfl

/-- A route with an empty path or directory makes the registration
loop fail, wherever it sits in the list. -/
theorem registerAll_not_ok_of_bad (l : List RouteConfig)
    (h : ∃ r ∈ l, r.path = "" ∨ r.directory = "") : ∀ m m' : Mux,
    registerAll m l ≠ .ok m' := by
  induction l with
  | nil => simp at h
  | cons r rest ih =>
    intro m m' hok
    obtain ⟨r0, hr0, hbad⟩ := h
    simp only [registerAll] at hok
    cases hreg : registerRoute m r with
    | error e => rw [hreg] at hok; cases e <;> simp at hok
    | ok m2 =>
      rw [hreg] at hok
      rcases List.mem_cons.mp hr0 with rfl | hmem
      · by_cases hp : r0.path = ""
        · rw [registerRoute, if_pos hp] at hreg; cases hreg
        · have hd : r0.directory = "" := hbad.resolve_left hp
          rw [registerRoute, if_neg hp, if_pos hd] at hreg; cases hreg
      · exact ih ⟨r0, hmem, hbad⟩ m2 m' hok

/-- Claim C7: `RegisterRoutes` errors on an empty route list and on a
route with an empty mount path or directory, naming the offending
route, and `Start` propagates every registration error rather than
starting with a partial route set. -/
theorem registration_rejects_invalid_routes (routes : List RouteConfig) :
    (registerRoutes [] = .error (.err "no routes configured")) ∧
    (serverStart [] = .error (.err "failed to register routes: no routes configured")) ∧
    ((∃ r ∈ routes, r.path = "" ∨ r.directory = "") →
      ∀ m : Mux, registerRoutes routes ≠ .ok m) ∧
    (∀ (pre : List RouteConfig) (r : RouteConfig) (post : List RouteConfig) (m0 : Mux),
      routes = pre ++ r :: post → registerAll [] pre = .ok m0 → r.path = "" →
      registerRoutes routes =
        .error (.err ("failed to register route " ++ r.path ++ ": route path cannot be empty"))) ∧
    (∀ (pre : List RouteConfig) (r : RouteConfig) (post : List RouteConfig) (m0 : Mux),
      routes = pre ++ r :: post → registerAll [] pre = .ok m0 → r.path ≠ "" →
      r.directory = "" →
      registerRoutes routes =
        .error (.err ("failed to register route " ++ r.path ++
          ": route directory cannot be empty"))) ∧
    (∀ msg : String, registerRoutes routes = .error (.err msg) →
      serverStart routes = .error (.err ("failed to register routes: " ++ msg))) ∧
    ((∀ m : Mux, registerRoutes routes ≠ .ok m) → ∀ m : Mux, serverStart routes ≠ .ok m) := by
  refine ⟨rfl, rfl, ?_, ?_, ?_, ?_, ?_⟩
  · intro hbad m hok
    unfold registerRoutes at hok
    by_cases hlen : routes.length = 0
    · rw [if_pos hlen] at hok; cases hok
    · rw [if_neg hlen] at hok
      cases hra : registerAll [] routes with
      | ok m2 => exact registerAll_not_ok_of_bad routes hbad [] m2 hra
      | error e => rw [hra] at hok; cases hok
  · intro pre r post m0 hsplit hpre hpath
    subst hsplit
    unfold registerRoutes
    rw [if_neg (by simp)]
    rw [registerAll_append, hpre]
    simp only [registerAll, registerRoute, if_pos hpath]
    have hm : (": " ++ "route path cannot be empty" : String) = ": route path cannot be empty" := by
      decide
    rw [str_append_assoc, hm]
  · intro pre r post m0 hsplit hpre hpath hdir
    subst hsplit
    unfold registerRoutes
    rw [if_neg (by simp)]
    rw [registerAll_append, hpre]
    simp only [registerAll, registerRoute, if_neg hpath, if_pos hdir]
    have hm : (": " ++ "route directory cannot be empty" : String) =
        ": route directory cannot be empty" := by
      decide
    rw [str_append_assoc, hm]
  · intro msg h
    unfold serverStart
    rw [h]
  · intro h m hok
    unfold serverStart at hok
    cases hr : registerRoutes routes with
    | ok m2 => exact h m2 hr
    | error e => rw [hr] at hok; cases e <;> cases hok

/-- Witness for C7: the empty list is rejected, and a second route
with an empty path aborts registration and startup with the wrapped
message. -/
theorem registration_rejects_invalid_routes_witness :
    registerRoutes [] = .error (.err "no routes configured") ∧
    registerRoutes [⟨"/a", "/srv/a"⟩, ⟨"", "/srv/b"⟩] =
      .error (.err ("failed to register route " ++ "" ++ ": route path cannot be empty")) ∧
    serverStart [⟨"/a", "/srv/a"⟩, ⟨"/ok", ""⟩] =
      .error (.err ("failed to register routes: " ++
        ("failed to register route " ++ "/ok" ++ ": route directory cannot be empty"))) := by
  refine ⟨(registration_rejects_invalid_routes []).1, ?_, ?_⟩
  · exact (registration_rejects_invalid_routes [⟨"/a", "/srv/a"⟩, ⟨"", "/srv/b"⟩]).2.2.2.1
      [⟨"/a", "/srv/a"⟩] ⟨"", "/srv/b"⟩ [] [("/a/", .route "/a/" "/srv/a")] rfl (by decide) rfl
  · exact (registration_rejects_invalid_routes [⟨"/a", "/srv/a"⟩, ⟨"/ok", ""⟩]).2.2.2.2.2.1 _
      ((registration_rejects_invalid_routes [⟨"/a", "/srv/a"⟩, ⟨"/ok", ""⟩]).2.2.2.2.1
        [⟨"/a", "/srv/a"⟩] ⟨"/ok", ""⟩ [] [("/a/", .route "/a/" "/srv/a")] rfl (by decide)
        (by decide) rfl)

/-- Counterexample to C3 as stated: registering two routes that share
the normalized mount path `/static/` does not succeed with
last-one-wins — `ServeMux.Handle` panics on the duplicate pattern. -/
theorem duplicate_mount_registration_panics :
    registerRoutes [⟨"/static", "/srv/a"⟩, ⟨"/static", "/srv/b"⟩] =
      .error (.panicked "http: multiple registrations for /static/") := by
  decide

/-- A normalized mount path always ends in `/`, so it is non-empty. -/
theorem normalizePath_ne_empty (p : String) : normalizePath p ≠ "" := by
  intro h
  unfold normalizePath at h
  cases h1 : goHasSuffixB (normalizePath1 p) "/" with
  | true =>
    rw [h1] at h
    simp at h
    rw [h] at h1
    exact absurd h1 (by decide)
  | false =>
    rw [h1] at h
    simp at h
    have hd := congrArg String.data h
    rw [str_data_append] at hd
    simp at hd

/-- Claim C3, amended: two otherwise-valid routes sharing one
normalized mount path do not register with last-one-wins semantics;
registration aborts with the `ServeMux` duplicate-pattern panic naming
that path. -/
theorem duplicate_mount_registration_aborts (r1 r2 : RouteConfig)
    (h1p : r1.path ≠ "") (h1d : r1.directory ≠ "") (h2p : r2.path ≠ "")
    (h2d : r2.directory ≠ "") (hdup : normalizePath r2.path = normalizePath r1.path) :
    registerRoutes [r1, r2] =
      .error (.panicked ("http: multiple registrations for " ++ normalizePath r2.path)) := by
  unfold registerRoutes
  rw [if_neg (by simp)]
  have hreg1 : registerRoute [] r1 = .ok [(normalizePath r1.path, .route (normalizePath r1.path) r1.directory)] := by
    rw [registerRoute, if_neg h1p, if_neg h1d, muxHandle,
      if_neg (normalizePath_ne_empty r1.path)]
    rfl
  simp only [registerAll, hreg1]
  rw [registerRoute, if_neg h2p, if_neg h2d, muxHandle,
    if_neg (normalizePath_ne_empty r2.path)]
  rw [if_pos (by simp [hdup])]

/-- Witness for the amended C3 at the concrete duplicate
`/static` routes. -/
theorem duplicate_mount_registration_aborts_witness :
    registerRoutes [⟨"/static", "/srv/a"⟩, ⟨"/static", "/srv/b"⟩] =
      .error (.panicked ("http: multiple registrations for " ++ normalizePath "/static")) :=
  duplicate_mount_registration_aborts ⟨"/static", "/srv/a"⟩ ⟨"/static", "/srv/b"⟩
    (by decide) (by decide) (by decide) (by decide) rfl

/-- Little-endian value of a digit list. -/
def decVal : List Nat → Nat
  | [] => 0
  | d :: ds => d + 10 * decVal ds

/-- The digit expansion round-trips to the number. -/
theorem decVal_decDigitsAux : ∀ f n : Nat, n ≤ f → decVal (decDigitsAux f n) = n := by
  intro f
  induction f with
  | zero =>
    intro n hn
    interval_cases n
    rfl
  | succ f ih =>
    intro n hn
    match n with
    | 0 => rfl
    | n + 1 =>
      have hdiv : (n + 1) / 10 ≤ f := by
        have : (n + 1) / 10 < n + 1 := Nat.div_lt_self (Nat.succ_pos n) (by norm_num)
        omega
      simp only [decDigitsAux, decVal, ih ((n + 1) / 10) hdiv]
      exact Nat.mod_add_div (n + 1) 10

/-- Every produced digit is below ten. -/
theorem decDigitsAux_lt_ten : ∀ f n d : Nat, d ∈ decDigitsAux f n → d < 10 := by
  intro f
  induction f with
  | zero =>
    intro n d hd
    match n with
    | 0 => simp [decDigitsAux] at hd
    | _ + 1 => simp [decDigitsAux] at hd
  | succ f ih =>
    intro n d hd
    match n with
    | 0 => simp [decDigitsAux] at hd
    | n + 1 =>
      simp only [decDigitsAux, List.mem_cons] at hd
      rcases hd with rfl | hd
      · exact Nat.mod_lt _ (by norm_num)
      · exact ih _ d hd

/-- The decimal digit characters are distinct for distinct digits. -/
theorem decDigitChar_inj_fin : ∀ d1 d2 : Fin 10,
    decDigitChar d1.val = decDigitChar d2.val → d1 = d2 := by decide

/-- Injectivity of the digit character on the digit range. -/
theorem decDigitChar_inj (d1 d2 : Nat) (h1 : d1 < 10) (h2 : d2 < 10)
    (h : decDigitChar d1 = decDigitChar d2) : d1 = d2 :=
  congrArg Fin.val (decDigitChar_inj_fin ⟨d1, h1⟩ ⟨d2, h2⟩ h)

/-- Mapping digit lists to characters is injective. -/
theorem map_decDigitChar_inj : ∀ l1 l2 : List Nat, (∀ x ∈ l1, x < 10) → (∀ x ∈ l2, x < 10) →
    l1.map decDigitChar = l2.map decDigitChar → l1 = l2 := by
  intro l1
  induction l1 with
  | nil =>
    intro l2 _ _ h
    cases l2 with
    | nil => rfl
    | cons b bs => simp at h
  | cons a as ih =>
    intro l2 hb1 hb2 h
    cases l2 with
    | nil => simp at h
    | cons b bs =>
      simp only [List.map_cons, List.cons.injEq] at h
      have ha := decDigitChar_inj a b (hb1 a (by simp)) (hb2 b (by simp)) h.1
      have hrest := ih bs (fun x hx => hb1 x (by simp [hx])) (fun x hx => hb2 x (by simp [hx])) h.2
      rw [ha, hrest]

/-- The decimal rendering is injective. -/
theorem decReprChars_inj (m n : Nat) (h : decReprChars m = decReprChars n) : m = n := by
  unfold decReprChars at h
  by_cases hm : m = 0 <;> by_cases hn : n = 0
  · rw [hm, hn]
  · exfalso
    rw [if_pos hm, if_neg hn] at h
    have h2 : (decDigitsAux n n).map decDigitChar = ['0'] := by
      have := congrArg List.reverse h
      simpa using this.symm
    have h3 : decDigitsAux n n = [0] := by
      have := map_decDigitChar_inj (decDigitsAux n n) [0]
        (fun x hx => decDigitsAux_lt_ten n n x hx) (by simp)
        (by simpa using h2)
      exact this
    have h4 := decVal_decDigitsAux n n (Nat.le_refl n)
    rw [h3] at h4
    simp [decVal] at h4
    exact hn h4.symm
  · exfalso
    rw [if_neg hm, if_pos hn] at h
    have h2 : (decDigitsAux m m).map decDigitChar = ['0'] := by
      have := congrArg List.reverse h
      simpa using this
    have h3 : decDigitsAux m m = [0] := by
      exact map_decDigitChar_inj (decDigitsAux m m) [0]
        (fun x hx => decDigitsAux_lt_ten m m x hx) (by simp) (by simpa using h2)
    have h4 := decVal_decDigitsAux m m (Nat.le_refl m)
    rw [h3] at h4
    simp [decVal] at h4
    exact hm h4.symm
  · rw [if_neg hm, if_neg hn] at h
    have h2 := congrArg List.reverse h
    simp only [List.reverse_reverse] at h2
    have h3 := map_decDigitChar_inj (decDigitsAux m m) (decDigitsAux n n)
      (fun x hx => decDigitsAux_lt_ten m m x hx) (fun x hx => decDigitsAux_lt_ten n n x hx) h2
    have h4 := decVal_decDigitsAux m m (Nat.le_refl m)
    have h5 := decVal_decDigitsAux n n (Nat.le_refl n)
    rw [h3] at h4
    rw [h5] at h4
    exact h4.symm

/-- Distinct clock readings give distinct request identifiers. -/
theorem generateRequestID_inj (t1 t2 : Nat)
    (h : generateRequestID t1 = generateRequestID t2) : t1 = t2 := by
  unfold generateRequestID decRepr at h
  have hd := congrArg String.data h
  rw [str_data_append, str_data_append] at hd
  exact decReprChars_inj t1 t2 (List.append_cancel_left hd)

/-- Counterexample to C8 as stated: `generateRequestID` depends only
on the wall-clock nanosecond reading, which Go does not guarantee to
differ across calls; two requests observing the same reading receive
the same identifier, so the identifiers of a process lifetime are not
pairwise distinct. -/
theorem requestID_collision_counterexample :
    requestIDs [7, 7] = ["req-7", "req-7"] ∧
    ¬ (requestIDs [7, 7]).Pairwise (fun a b => a ≠ b) := by
  refine ⟨by decide, fun h => ?_⟩
  rw [show requestIDs [7, 7] = ["req-7", "req-7"] from by decide] at h
  exact (List.pairwise_cons.mp h).1 "req-7" (by simp) rfl

/-- Claim C8, amended: the identifiers generated by the logging
middleware are pairwise distinct whenever the nanosecond clock
readings they were generated from are pairwise distinct; uniqueness
holds only under that clock assumption, not unconditionally. -/
theorem distinct_timestamps_distinct_ids (clock : List Nat)
    (h : clock.Pairwise (· ≠ ·)) : (requestIDs clock).Pairwise (· ≠ ·) := by
  unfold requestIDs
  exact h.map _ fun a b hab hid => hab (generateRequestID_inj a b hid)

/-- Witness for the amended C8 on three distinct readings. -/
theorem distinct_timestamps_distinct_ids_witness :
    (requestIDs [1, 2, 10]).Pairwise (· ≠ ·) :=
  distinct_timestamps_distinct_ids [1, 2, 10] (by decide)

/-- Whether `os.Stat` reports a regular (non-directory) entry at `p`
(the probe condition `err == nil && !info.IsDir()`). -/
def isRegularFileAt (fs : FS) (p : String) : Bool :=
  match fs.stat p with
  | .ok info => !info.isDir
  | .error _ => false

/-- The probe loop answers the first candidate that stats as a
regular file, skipping every earlier candidate that does not. -/
theorem probeIndex_first (fs : FS) (fullPath : String) :
    ∀ (pre : List String) (c : String) (post : List String),
      (∀ c' ∈ pre, isRegularFileAt fs (pathJoin fullPath c') = false) →
      isRegularFileAt fs (pathJoin fullPath c) = true →
      ∃ info : Stat, fs.stat (pathJoin fullPath c) = .ok info ∧ info.isDir = false ∧
        (probeIndex fs fullPath (pre ++ c :: post)).1 = some (pathJoin fullPath c, info) := by
  intro pre
  induction pre with
  | nil =>
    intro c post _ hc
    unfold isRegularFileAt at hc
    cases hs : fs.stat (pathJoin fullPath c) with
    | ok info =>
      rw [hs] at hc
      have hdir : info.isDir = false := by simpa using hc
      exact ⟨info, rfl, hdir, by simp [probeIndex, hs, hdir]⟩
    | error e => rw [hs] at hc; cases hc
  | cons c0 rest ih =>
    intro c post hpre hc
    have h0 : isRegularFileAt fs (pathJoin fullPath c0) = false := hpre c0 (by simp)
    obtain ⟨info, h1, h2, h3⟩ := ih c post (fun c' hc' => hpre c' (by simp [hc'])) hc
    refine ⟨info, h1, h2, ?_⟩
    unfold isRegularFileAt at h0
    simp only [List.cons_append, probeIndex]
    cases hs : fs.stat (pathJoin fullPath c0) with
    | ok i0 =>
      rw [hs] at h0
      have : i0.isDir = true := by simpa using h0
      simp [this, h3]
    | error e => simp [h3]

/-- When no candidate stats as a regular file the probe finds
nothing. -/
theorem probeIndex_none (fs : FS) (fullPath : String) :
    ∀ cands : List String,
      (∀ c ∈ cands, isRegularFileAt fs (pathJoin fullPath c) = false) →
      (probeIndex fs fullPath cands).1 = none := by
  intro cands
  induction cands with
  | nil => intro _; rfl
  | cons c0 rest ih =>
    intro h
    have h0 : isRegularFileAt fs (pathJoin fullPath c0) = false := h c0 (by simp)
    unfold isRegularFileAt at h0
    simp only [probeIndex]
    cases hs : fs.stat (pathJoin fullPath c0) with
    | ok i0 =>
      rw [hs] at h0
      have : i0.isDir = true := by simpa using h0
      simp [this, ih fun c' hc' => h c' (by simp [hc'])]
    | error e => simp [ih fun c' hc' => h c' (by simp [hc'])]

/-- Stripping a mount path from itself leaves the cleaned remainder
`/` (the request to the mount root). -/
theorem cleanedRemainder_self (basePath : String) :
    cleanedRemainder basePath basePath = "/" := by
  have hc : goHasPrefixB basePath basePath = true := by
    rw [goHasPrefixB, List.isPrefixOf_iff_prefix]
  have h1 : goTrimPfx basePath basePath = "" := by
    unfold goTrimPfx
    rw [if_pos hc, List.drop_length]
  unfold cleanedRemainder
  rw [h1]
  decide

/-- `handleDirectory` serves the first index candidate that stats as
a regular file, answering its content. -/
theorem handleDirectory_serves_first (fs : FS) (fp up content : String)
    (pre : List String) (c : String) (post : List String)
    (hsplit : indexFiles = pre ++ c :: post)
    (hpre : ∀ c' ∈ pre, isRegularFileAt fs (pathJoin fp c') = false)
    (hc : isRegularFileAt fs (pathJoin fp c) = true)
    (hopen : fs.openRead (pathJoin fp c) = .ok content) :
    (handleDirectory fs fp up).1.status = 200 ∧
    (handleDirectory fs fp up).1.body = content := by
  obtain ⟨info, h1, h2, h3⟩ := probeIndex_first fs fp pre c post hpre hc
  rw [← hsplit] at h3
  unfold handleDirectory
  cases hp : probeIndex fs fp indexFiles with
  | mk fstv ops =>
    rw [hp] at h3
    simp only at h3
    subst h3
    simp [serveFileM, hopen]

/-- Claim C5: `handleDirectory` probes the ordered index candidates
and serves the first that exists as a regular file, answering its
content verbatim; with no readable candidate it falls through to the
directory listing; in particular a request to the mount root of a
directory whose root holds an `index.html` answers that file's
content with status 200 through the whole `ServeFiles` pipeline. -/
theorem directory_index_probe (fs : FS) (basePath directory urlPath fullPath : String)
    (s : Stat) (content : String) :
    (∀ (pre : List String) (c : String) (post : List String),
      indexFiles = pre ++ c :: post →
      (∀ c' ∈ pre, isRegularFileAt fs (pathJoin fullPath c') = false) →
      isRegularFileAt fs (pathJoin fullPath c) = true →
      fs.openRead (pathJoin fullPath c) = .ok content →
      (handleDirectory fs fullPath urlPath).1.status = 200 ∧
      (handleDirectory fs fullPath urlPath).1.body = content) ∧
    ((∀ c ∈ indexFiles, isRegularFileAt fs (pathJoin fullPath c) = false) →
      (handleDirectory fs fullPath urlPath).1 = (listDirectory fs fullPath urlPath).1) ∧
    (fs.stat (pathJoin directory "/") = .ok s → s.isDir = true →
      isRegularFileAt fs (pathJoin (pathJoin directory "/") "index.html") = true →
      fs.openRead (pathJoin (pathJoin directory "/") "index.html") = .ok content →
      (serveFiles fs basePath directory basePath).1.status = 200 ∧
      (serveFiles fs basePath directory basePath).1.body = content) := by
  refine ⟨?_, ?_, ?_⟩
  · intro pre c post hsplit hpre hc hopen
    exact handleDirectory_serves_first fs fullPath urlPath content pre c post hsplit hpre hc hopen
  · intro hnone
    unfold handleDirectory
    have h3 := probeIndex_none fs fullPath indexFiles hnone
    cases hp : probeIndex fs fullPath indexFiles with
    | mk fstv ops =>
      rw [hp] at h3
      simp only at h3
      subst h3
      simp
  · intro hstat hdir hidx hopen
    have hmain := handleDirectory_serves_first fs (pathJoin directory "/") basePath content
      [] "index.html" ["index.htm", "default.html"] rfl (by simp) hidx hopen
    have hred : serveFiles fs basePath directory basePath =
        ((handleDirectory fs (pathJoin directory "/") basePath).1,
          FsOp.statOp (pathJoin directory "/") ::
            (handleDirectory fs (pathJoin directory "/") basePath).2) := by
      simp [serveFiles, cleanedRemainder_self, hstat, hdir,
        show goHasPrefixB "/" ".." = false from by decide]
    rw [hred]
    exact ⟨hmain.1, hmain.2⟩

/-- A filesystem whose directory `/www` holds an `index.html` with
content `hello`. -/
def indexFS : FS :=
  { stat := fun p =>
      if p = "/www" then .ok ⟨true, 0, 0⟩
      else if p = "/www/index.html" then .ok ⟨false, 5, 0⟩
      else .error .notExist
  , openRead := fun p => if p = "/www/index.html" then .ok "hello" else .error .other
  , readDir := fun _ => .error .other }

/-- Witness for C5: a request to the mount root `/site/` serves the
root `index.html` content verbatim. -/
theorem directory_index_probe_witness :
    (serveFiles indexFS "/site/" "/www" "/site/").1.status = 200 ∧
    (serveFiles indexFS "/site/" "/www" "/site/").1.body = "hello" :=
  (directory_index_probe indexFS "/site/" "/www" "/site/" "/www" ⟨true, 0, 0⟩ "hello").2.2
    (by decide) rfl (by decide) (by decide)

/-- Prepending the empty string changes nothing. -/
theorem str_empty_append (s : String) : "" ++ s = s :=
  congrArg String.mk (List.nil_append s.data)

/-- Byte-lexicographic string order is total. -/
theorem lexLe_total : ∀ a b : List Char, (lexLe a b || lexLe b a) = true := by
  intro a
  induction a with
  | nil => intro b; simp [lexLe]
  | cons x xs ih =>
    intro b
    cases b with
    | nil => simp [lexLe]
    | cons y ys =>
      simp only [lexLe]
      by_cases hxy : x.toNat < y.toNat
      · simp [hxy]
      · by_cases hyx : y.toNat < x.toNat
        · simp [hxy, hyx]
        · simp [hxy, hyx, ih ys]

/-- Byte-lexicographic string order is transitive. -/
theorem lexLe_trans : ∀ a b c : List Char,
    lexLe a b = true → lexLe b c = true → lexLe a c = true := by
  intro a
  induction a with
  | nil => intro b c _ _; rfl
  | cons x xs ih =>
    intro b c hab hbc
    cases b with
    | nil => simp [lexLe] at hab
    | cons y ys =>
      cases c with
      | nil => simp [lexLe] at hbc
      | cons z zs =>
        simp only [lexLe] at hab hbc ⊢
        by_cases hxy : x.toNat < y.toNat
        · by_cases hyz : y.toNat < z.toNat
          · simp [show x.toNat < z.toNat by omega]
          · by_cases hzy : z.toNat < y.toNat
            · simp [hyz, hzy] at hbc
            · simp [show x.toNat < z.toNat by omega]
        · by_cases hyx : y.toNat < x.toNat
          · simp [hxy, hyx] at hab
          · simp only [if_neg hxy, if_neg hyx] at hab
            by_cases hyz : y.toNat < z.toNat
            · simp [show x.toNat < z.toNat by omega]
            · by_cases hzy : z.toNat < y.toNat
              · simp [hyz, hzy] at hbc
              · simp only [if_neg hyz, if_neg hzy] at hbc
                simp only [if_neg (show ¬ x.toNat < z.toNat by omega),
                  if_neg (show ¬ z.toNat < x.toNat by omega)]
                exact ih ys zs hab hbc

/-- The listing comparator is total. -/
theorem fileLe_total (a b : FInfo) : (fileLe a b || fileLe b a) = true := by
  unfold fileLe fileLess
  cases ha : a.isDir <;> cases hb : b.isDir <;> simp [ha, hb, lexLe_total]

/-- The listing comparator is transitive. -/
theorem fileLe_trans (a b c : FInfo) (hab : fileLe a b = true) (hbc : fileLe b c = true) :
    fileLe a c = true := by
  unfold fileLe fileLess at *
  cases ha : a.isDir <;> cases hb : b.isDir <;> cases hc : c.isDir <;>
    simp_all <;> exact lexLe_trans _ _ _ hab hbc

/-- The ordering the spec states for listings: directories strictly
before files, and inside one group non-decreasing by name. -/
def dirsFirstOrdered (a b : FInfo) : Prop :=
  (a.isDir = true ∧ b.isDir = false) ∨ (a.isDir = b.isDir ∧ lexLe a.name.data b.name.data = true)

/-- The comparator implies the spec's ordering relation. -/
theorem fileLe_imp_ordered (a b : FInfo) (h : fileLe a b = true) : dirsFirstOrdered a b := by
  unfold fileLe fileLess at h
  unfold dirsFirstOrdered
  cases ha : a.isDir <;> cases hb : b.isDir <;> simp_all

/-- The sorted listing sequence is ordered as the spec states. -/
theorem listingFiles_sorted (entries : List DirEnt) :
    (listingFiles entries).Pairwise dirsFirstOrdered := by
  unfold listingFiles
  exact (List.sorted_mergeSort (fun a b c => fileLe_trans a b c)
    (fun a b => fileLe_total a b) _).imp (fileLe_imp_ordered _ _)

/-- Row concatenation splits along list concatenation. -/
theorem concatStr_append (l1 l2 : List String) :
    concatStr (l1 ++ l2) = concatStr l1 ++ concatStr l2 := by
  induction l1 with
  | nil => simp [concatStr, str_empty_append]
  | cons s rest ih => simp [concatStr, ih, str_append_assoc]

/-- Every rendered row embeds the entry's name literally. -/
theorem rowHtml_decomp (fi : FInfo) :
    ∃ u v : String, rowHtml fi = u ++ (fi.name ++ v) := by
  cases h : fi.isDir
  · refine ⟨"            <tr>\n                <td>\n" ++ "                    <a href=\"",
      "\">" ++ fi.name ++ "</a>\n" ++
        ("                </td>\n                <td class=\"size\">" ++ formatSize fi ++
          "</td>\n                <td class=\"date\">" ++ formatModTime fi ++
          "</td>\n            </tr>\n"), ?_⟩
    unfold rowHtml
    rw [if_neg (by simp [h])]
    simp only [str_append_assoc]
  · refine ⟨"            <tr>\n                <td>\n" ++ "                    <a href=\"",
      "/\" class=\"dir\">" ++ fi.name ++ "/</a>\n" ++
        ("                </td>\n                <td class=\"size\">" ++ formatSize fi ++
          "</td>\n                <td class=\"date\">" ++ formatModTime fi ++
          "</td>\n            </tr>\n"), ?_⟩
    unfold rowHtml
    rw [if_pos h]
    simp only [str_append_assoc]

/-- The rendered listing embeds the name of every listed entry. -/
theorem renderListing_contains (up : String) (files : List FInfo) (fi : FInfo)
    (hmem : fi ∈ files) :
    ∃ u v : String, renderListing up files = u ++ (fi.name ++ v) := by
  obtain ⟨l1, l2, rfl⟩ := List.append_of_mem hmem
  obtain ⟨a, b, hrow⟩ := rowHtml_decomp fi
  refine ⟨listingHeader up ++ parentRow up ++ concatStr (l1.map rowHtml) ++ a,
          b ++ (concatStr (l2.map rowHtml) ++ listingFooter), ?_⟩
  unfold renderListing
  rw [List.map_append, List.map_cons, concatStr_append,
    show concatStr (rowHtml fi :: l2.map rowHtml) =
      rowHtml fi ++ concatStr (l2.map rowHtml) from rfl, hrow]
  simp [str_append_assoc]

/-- Claim C6: for a readable directory (all entries statable), the
generated listing responds 200 with the rendered page; the rendered
sequence is a permutation of the directory's children with
directories pairwise before files and names non-decreasing within
each group, and the page body embeds every child's name literally. -/
theorem listing_complete_and_sorted (fs : FS) (directory urlPath : String)
    (entries : List DirEnt) (hread : fs.readDir directory = .ok entries)
    (hinfo : ∀ e ∈ entries, e.infoErr = false) :
    (listDirectory fs directory urlPath).1.status = 200 ∧
    (listDirectory fs directory urlPath).1.body = renderListing urlPath (listingFiles entries) ∧
    ((listingFiles entries).map (fun fi => fi.name)).Perm (entries.map (fun e => e.name)) ∧
    (listingFiles entries).Pairwise dirsFirstOrdered ∧
    (∀ e ∈ entries, ∃ u v : String,
      (listDirectory fs directory urlPath).1.body = u ++ (e.name ++ v)) := by
  have hfilter : entries.filter (fun e => !e.infoErr) = entries := by
    rw [List.filter_eq_self]
    intro a ha
    simp [hinfo a ha]
  have hld : (listDirectory fs directory urlPath).1 =
      { status := 200
      , headers := [("Content-Type", "text/html; charset=utf-8")]
      , body := renderListing urlPath (listingFiles entries) } := by
    simp [listDirectory, hread]
  have hperm : ((listingFiles entries).map (fun fi => fi.name)).Perm
      (entries.map (fun e => e.name)) := by
    unfold listingFiles
    rw [hfilter]
    have h1 := (List.mergeSort_perm
      (entries.map fun e =>
        ({ name := e.name, size := e.size, modTime := e.modTime, isDir := e.isDir } : FInfo))
      fileLe).map (fun fi => fi.name)
    rw [List.map_map] at h1
    exact h1
  refine ⟨by rw [hld], by rw [hld], hperm, listingFiles_sorted entries, ?_⟩
  intro e he
  have hv : ({ name := e.name, size := e.size, modTime := e.modTime, isDir := e.isDir } : FInfo) ∈
      listingFiles entries := by
    unfold listingFiles
    rw [List.mem_mergeSort, hfilter]
    exact List.mem_map_of_mem _ he
  obtain ⟨u, v, huv⟩ := renderListing_contains urlPath (listingFiles entries) _ hv
  exact ⟨u, v, by rw [hld]; exact huv⟩

/-- A filesystem whose directory `/pub` holds two files and two
subdirectories in scrambled order. -/
def listFS : FS :=
  { stat := fun _ => .error .notExist
  , openRead := fun _ => .error .other
  , readDir := fun p =>
      if p = "/pub" then
        .ok [⟨"b.txt", 3, 0, false, false⟩, ⟨"zdir", 0, 0, true, false⟩,
             ⟨"a.txt", 1, 0, false, false⟩, ⟨"kdir", 0, 0, true, false⟩]
      else .error .notExist }

/-- Witness for C6 on the concrete four-entry directory. -/
theorem listing_complete_and_sorted_witness :
    (listDirectory listFS "/pub" "/files/").1.status = 200 ∧
    (listingFiles [⟨"b.txt", 3, 0, false, false⟩, ⟨"zdir", 0, 0, true, false⟩,
      ⟨"a.txt", 1, 0, false, false⟩, ⟨"kdir", 0, 0, true, false⟩]).Pairwise dirsFirstOrdered :=
  have h := listing_complete_and_sorted listFS "/pub" "/files/"
    [⟨"b.txt", 3, 0, false, false⟩, ⟨"zdir", 0, 0, true, false⟩,
     ⟨"a.txt", 1, 0, false, false⟩, ⟨"kdir", 0, 0, true, false⟩] (by decide) (by decide)
  ⟨h.1, h.2.2.2.1⟩

/-- Validation of the path model against the documented behaviour of
Go's `filepath.Clean`, `filepath.Join` and `strings.TrimPrefix` on
representative inputs. -/
theorem path_model_sanity :
    pathClean "/" = "/" ∧
    pathClean "../../etc/passwd" = "../../etc/passwd" ∧
    pathClean "/../etc" = "/etc" ∧
    pathClean "a/.." = "." ∧
    pathClean "a//b/./c" = "a/b/c" ∧
    pathClean "..data" = "..data" ∧
    pathJoin "/www" "/" = "/www" ∧
    pathJoin "/www" "..data" = "/www/..data" ∧
    goTrimPfx "/static/x" "/static/" = "x" ∧
    goTrimPfx "/other" "/static/" = "/other" := by
  decide

/-- Validation of the auth and registration model: standard base64
round-trips, garbage is rejected, mount paths normalise as in the
source's tests, and `%d` renders decimals. -/
theorem auth_server_model_sanity :
    base64Decode "YWRtaW46c2VjcmV0" =
      some (utf8Bytes "admin" ++ 58 :: utf8Bytes "secret") ∧
    extractCredentials "Basic YWRtaW46c2VjcmV0" =
      some (utf8Bytes "admin", utf8Bytes "secret") ∧
    base64Decode "!!!" = none ∧
    normalizePath "/static" = "/static/" ∧
    normalizePath "static" = "/static/" ∧
    generateRequestID 1234567890 = "req-1234567890" := by
  decide

end Otterserve
